import Mathlib

/-!
# Verification of the kilo-style terminal editor core (src/exploration/kilo/kilo.c)

This file gives a shallow embedding, in Lean 4, of the editor core found in
`src/exploration/kilo/kilo.c`, and proves (or refutes) the frozen claims about
it.  C machine integers (`int`) are modelled as `Int`; byte strings are
modelled as `List Char`; fallible reads are modelled with `Option`; the global
`struct editorConfig E` becomes an explicit `EditorConfig` value threaded
through each operation; observable side effects (writes to the terminal,
`printf`, `perror`, `exit`) become explicit event values returned alongside
the new state.
-/

set_option maxHeartbeats 1000000

/-- Interaction mode, from `typedef enum { NORMAL, INSERT, VISUAL } mode;`. -/
inductive Mode where
  | NORMAL
  | INSERT
  | VISUAL
deriving DecidableEq, Repr

/-- One document row, from `typedef struct erow { int size; char *contents; }`.
`size` is a C `int`; `contents` is the byte buffer (without the terminating
NUL, which the core never relies on when drawing: it always passes `size`). -/
structure Erow where
  size : Int
  contents : List Char
deriving DecidableEq, Repr

/-- The global editor state, from `struct editorConfig`.  The
`original_termios` snapshot is process-wide terminal state handled by the
fatal-path model below and is not part of this pure state record. -/
structure EditorConfig where
  cur_row : Int
  cur_col : Int
  row_offset : Int
  screen_rows : Int
  screen_cols : Int
  mode : Mode
  num_rows : Int
  row_capacity : Int
  rows : List Erow
deriving DecidableEq, Repr

/-- `ARROW_LEFT = 'h'` from `enum editor_key`. -/
def ARROW_LEFT : Nat := 'h'.toNat

/-- `ARROW_RIGHT = 'l'` from `enum editor_key`. -/
def ARROW_RIGHT : Nat := 'l'.toNat

/-- `ARROW_UP = 'k'` from `enum editor_key`. -/
def ARROW_UP : Nat := 'k'.toNat

/-- `ARROW_DOWN = 'j'` from `enum editor_key`. -/
def ARROW_DOWN : Nat := 'j'.toNat

/-- `#define CTRL_KEY(k) ((k) & 0x1F)`. -/
def CTRL_KEY (k : Nat) : Nat := k &&& 0x1F

/-- Observable actions of a fatal-error path: the terminal-attribute restore
performed by `disableRawMode` (`tcsetattr(STDIN_FILENO, TCSAFLUSH,
&E.original_termios)`), the `perror(s)` message, and process termination with
an exit code. -/
inductive FatalAction where
  | restoreTerminal
  | perrorMsg (s : String)
  | exitProcess (code : Nat)
deriving DecidableEq, Repr

/-- Model of `die(s)` followed by the C `exit(1)` semantics.

From the source: `die` appends the clear-screen and home sequences into a
*local* append buffer, frees that buffer without ever writing it to the
terminal (so no terminal write occurs), calls `editorFree` (memory only, no
observable terminal action), calls `perror(s)`, and then `exit(1)`.  `exit`
runs the registered `atexit` handlers before terminating: `disableRawMode`
(which reapplies the pristine `original_termios` snapshot) runs only when
`enableRawMode` already registered it, i.e. only when the initial `tcgetattr`
had succeeded; `restoreRegistered` records that.  The `tcsetattr` inside
`disableRawMode` is modelled on its success path. -/
def die (restoreRegistered : Bool) (s : String) : List FatalAction :=
  FatalAction.perrorMsg s ::
    ((if restoreRegistered then [FatalAction.restoreTerminal] else []) ++
      [FatalAction.exitProcess 1])

/-- Index of the first terminal-restore action in a fatal trace. -/
def restoreIdx (t : List FatalAction) : Option Nat :=
  t.findIdx? (fun a => a = FatalAction.restoreTerminal)

/-- Index of the first error-printing action in a fatal trace. -/
def printIdx (t : List FatalAction) : Option Nat :=
  t.findIdx? (fun a => match a with
    | FatalAction.perrorMsg _ => true
    | _ => false)

/-- `restoreBeforePrint t` holds when the trace `t` contains a terminal
restore and it happens before the error message is printed. -/
def restoreBeforePrint (t : List FatalAction) : Bool :=
  match restoreIdx t, printIdx t with
  | some i, some j => decide (i < j)
  | some _, none => true
  | none, _ => false

/-- `abAppend` with the outcome of the `realloc` made explicit
(`allocOk = false` models `realloc` returning `NULL`).  From the source: on
allocation failure the function just `return`s — the buffer is left unchanged,
the bytes are dropped, and no fatal path is taken (hence the second component,
the fatal trace, is always `none`). -/
def abAppendA (allocOk : Bool) (ab : List Char) (s : List Char) :
    List Char × Option (List FatalAction) :=
  if allocOk then (ab ++ s, none) else (ab, none)

/-- `abAppend` on the allocation success path (the path every render claim is
about). -/
def abAppend (ab : List Char) (s : List Char) : List Char :=
  (abAppendA true ab s).1

/-- `hideCursor`: appends `ESC[?25l`. -/
def hideCursor (ab : List Char) : List Char := abAppend ab "\x1b[?25l".toList

/-- `showCursor`: appends `ESC[?25h`. -/
def showCursor (ab : List Char) : List Char := abAppend ab "\x1b[?25h".toList

/-- `resetCrusorPosition` (name kept from the source): appends `ESC[H`. -/
def resetCrusorPosition (ab : List Char) : List Char := abAppend ab "\x1b[H".toList

/-- `clearScreen`: appends `ESC[2J` then the home sequence. -/
def clearScreen (ab : List Char) : List Char :=
  resetCrusorPosition (abAppend ab "\x1b[2J".toList)

/-- The bytes produced by `moveCursor(rows, cols)`:
`snprintf(buf, sizeof(buf), "\x1b[%d;%dH", rows, cols)` followed by a direct
`write` of `buf` (the 32-byte buffer always suffices for two `int`s). -/
def moveCursor (rows cols : Int) : List Char :=
  "\x1b[".toList ++ (toString rows).toList ++ ";".toList ++
    (toString cols).toList ++ "H".toList

/-- `moveCursorToCurrentPos`: the bytes written for a cursor-only reposition. -/
def moveCursorToCurrentPos (E : EditorConfig) : List Char :=
  moveCursor ((E.cur_row - E.row_offset) + 1) (E.cur_col + 1)

/-- `editorScroll`.  The two sequential `if`s of the source are expanded: the
second condition reads the `row_offset` already updated by the first (when the
first fired, `row_offset` is `cur_row` at that point).  Returns the new state
together with the C `int` result `scrolled`. -/
def editorScroll (E : EditorConfig) : EditorConfig × Int :=
  if E.cur_row < E.row_offset then
    if E.cur_row ≥ E.cur_row + E.screen_rows then
      ({ E with row_offset := E.cur_row - E.screen_rows + 1 }, 1)
    else
      ({ E with row_offset := E.cur_row }, 1)
  else
    if E.cur_row ≥ E.row_offset + E.screen_rows then
      ({ E with row_offset := E.cur_row - E.screen_rows + 1 }, 1)
    else
      (E, 0)

/-- The bytes `editorDrawRows` appends for screen row `y` (the body of its
`for` loop): the visible slice of document row `y + row_offset` (or the `~`
fill byte), then `ESC[K`, then `"\r\n"` on all but the last screen row.
Negative `file_row` indexing (impossible under the editor's invariants, and
undefined behaviour in the C) is totalised by `List.getD`. -/
def drawRowBytes (E : EditorConfig) (y : Nat) : List Char :=
  (if (y : Int) + E.row_offset < E.num_rows then
    let r := E.rows.getD ((y : Int) + E.row_offset).toNat ⟨0, []⟩
    let len := if r.size > E.screen_cols then E.screen_cols else r.size
    r.contents.take len.toNat
  else ['~']) ++
  "\x1b[K".toList ++
  (if (y : Int) < E.screen_rows - 1 then "\r\n".toList else [])

/-- `editorDrawRows`: the `for (y = 0; y < E.screen_rows; ++y)` loop appending
each row's bytes to the append buffer. -/
def editorDrawRows (E : EditorConfig) (ab : List Char) : List Char :=
  (List.range E.screen_rows.toNat).foldl (fun ab y => abAppend ab (drawRowBytes E y)) ab

/-- `editorRefreshScreen`: recompute the scroll offset, then stage
hide-cursor, home, the drawn rows, the absolute cursor-positioning sequence
(`snprintf "\x1b[%d;%dH"`, same format as `moveCursor`), and show-cursor into
one append buffer; the buffer is flushed by a single `write`.  Returns the
state after the internal `editorScroll` and the flushed frame. -/
def editorRefreshScreen (E : EditorConfig) : EditorConfig × List Char :=
  let E1 := (editorScroll E).1
  let ab : List Char := []
  let ab := hideCursor ab
  let ab := resetCrusorPosition ab
  let ab := editorDrawRows E1 ab
  let ab := abAppend ab (moveCursor ((E1.cur_row - E1.row_offset) + 1) (E1.cur_col + 1))
  let ab := showCursor ab
  (E1, ab)

/-- Claim-side rendering of one screen row, written from the specification's
words for claim C4: "either the first min(size, screen_cols) bytes of document
row y+row_offset (when y+row_offset < num_rows ...) or the single fill byte
'~', each followed by `ESC[K` and, for all but the last screen row,
`\r\n`". -/
def specRowBytes (E : EditorConfig) (y : Nat) : List Char :=
  (if (y : Int) + E.row_offset < E.num_rows then
    let r := E.rows.getD ((y : Int) + E.row_offset).toNat ⟨0, []⟩
    r.contents.take (min r.size E.screen_cols).toNat
  else ['~']) ++
  "\x1b[K".toList ++
  (if y + 1 < E.screen_rows.toNat then "\r\n".toList else [])

/-- The whole frame as claim C4 describes it, with the claim's `row_offset`,
`cur_row`, ... read directly from the given state: hide-cursor, home, the
screen rows, the absolute positioning sequence
`ESC[{cur_row - row_offset + 1};{cur_col + 1}H`, show-cursor. -/
def specFrame (E : EditorConfig) : List Char :=
  "\x1b[?25l".toList ++ "\x1b[H".toList ++
  ((List.range E.screen_rows.toNat).map (specRowBytes E)).flatten ++
  "\x1b[".toList ++ (toString (E.cur_row - E.row_offset + 1)).toList ++ ";".toList ++
  (toString (E.cur_col + 1)).toList ++ "H".toList ++
  "\x1b[?25h".toList

/-- `editorReadKey`, given the byte `c` produced by the initial (retrying)
blocking read, and the outcomes `seq0`, `seq1` of the two follow-byte reads
attempted when `c` is the escape byte (`none` models `read` returning without
a byte before the timeout; a follow byte that is never attempted is simply
ignored).  The debug `printf`s on the partial-read paths produce no key and
are not modelled.  Decodes `ESC [ A/B/C/D` to the arrow symbols, any other
escape-led input to the bare escape byte `0x1B`, and any non-escape byte to
itself. -/
def editorReadKey (c : Nat) (seq0 seq1 : Option Nat) : Nat :=
  if c = 0x1b then
    match seq0 with
    | none => 0x1b
    | some s0 =>
      match seq1 with
      | none => 0x1b
      | some s1 =>
        if s0 = '['.toNat then
          if s1 = 'A'.toNat then ARROW_UP
          else if s1 = 'B'.toNat then ARROW_DOWN
          else if s1 = 'C'.toNat then ARROW_RIGHT
          else if s1 = 'D'.toNat then ARROW_LEFT
          else 0x1b
        else 0x1b
  else c

/-- Observable outputs of one `editorProcessKeypress` call: `write` is a
direct terminal write (`moveCursorToCurrentPos` or a flushed refresh frame);
`echo` is the INSERT-mode default branch's diagnostic
`printf("%d ('%c')\r\n", c, c)`. -/
inductive Out where
  | write (s : List Char)
  | echo (s : List Char)
deriving DecidableEq, Repr

/-- The text produced by the INSERT-mode diagnostic echo
`printf("%d ('%c')\r\n", c, c)` for key byte `c`. -/
def printfEcho (c : Nat) : List Char :=
  (toString c).toList ++ " ('".toList ++ [Char.ofNat c] ++ "')\r\n".toList

/-- `true` exactly on diagnostic-echo outputs. -/
def isEcho : Out → Bool
  | Out.echo _ => true
  | Out.write _ => false

/-- The result of one `editorProcessKeypress` call: the new editor state, the
outputs produced, and `some code` when the call ran `exit(code)`. -/
structure PKResult where
  E : EditorConfig
  out : List Out
  exitCode : Option Nat
deriving DecidableEq, Repr

/-- The `if (E.mode == NORMAL) { switch (c) ... }` block of
`editorProcessKeypress`.  The `switch` cases appear in source order; vertical
motion recomputes the scroll and either refreshes fully (offset changed) or
repositions the cursor only; `editorRefreshScreen` is invoked on the state
already mutated by the preceding `editorScroll`. -/
def normalModeStep (c : Nat) (E : EditorConfig) : PKResult :=
  if c = ARROW_DOWN then
    let E1 := if E.cur_row < E.num_rows - 1 then { E with cur_row := E.cur_row + 1 } else E
    let p := editorScroll E1
    if p.2 ≠ 0 then
      let q := editorRefreshScreen p.1
      { E := q.1, out := [Out.write q.2], exitCode := none }
    else
      { E := p.1, out := [Out.write (moveCursorToCurrentPos p.1)], exitCode := none }
  else if c = ARROW_UP then
    let E1 := if E.cur_row > 0 then { E with cur_row := E.cur_row - 1 } else E
    let p := editorScroll E1
    if p.2 ≠ 0 then
      let q := editorRefreshScreen p.1
      { E := q.1, out := [Out.write q.2], exitCode := none }
    else
      { E := p.1, out := [Out.write (moveCursorToCurrentPos p.1)], exitCode := none }
  else if c = ARROW_RIGHT then
    let E1 := if E.cur_col < E.screen_cols - 1 then { E with cur_col := E.cur_col + 1 } else E
    { E := E1, out := [Out.write (moveCursorToCurrentPos E1)], exitCode := none }
  else if c = ARROW_LEFT then
    let E1 := if E.cur_col > 0 then { E with cur_col := E.cur_col - 1 } else E
    { E := E1, out := [Out.write (moveCursorToCurrentPos E1)], exitCode := none }
  else if c = 'i'.toNat then
    { E := { E with mode := Mode.INSERT }, out := [], exitCode := none }
  else if c = CTRL_KEY 'q'.toNat then
    { E := E, out := [], exitCode := some 0 }
  else if c = CTRL_KEY 'r'.toNat then
    let q := editorRefreshScreen E
    { E := q.1, out := [Out.write q.2], exitCode := none }
  else
    { E := E, out := [], exitCode := none }

/-- The `if (E.mode == INSERT) { switch (c) ... }` block of
`editorProcessKeypress`: bare escape returns to NORMAL, Ctrl-Q exits with
status 0, Ctrl-R refreshes, and any other key is acknowledged by the
diagnostic echo. -/
def insertModeStep (c : Nat) (E : EditorConfig) : PKResult :=
  if c = 0x1b then
    { E := { E with mode := Mode.NORMAL }, out := [], exitCode := none }
  else if c = CTRL_KEY 'q'.toNat then
    { E := E, out := [], exitCode := some 0 }
  else if c = CTRL_KEY 'r'.toNat then
    let q := editorRefreshScreen E
    { E := q.1, out := [Out.write q.2], exitCode := none }
  else
    { E := E, out := [Out.echo (printfEcho c)], exitCode := none }

/-- `editorProcessKeypress` for the already-decoded key byte `c`: the two mode
checks are sequential `if` statements, so after the NORMAL block has run (and
did not `exit`), the INSERT block runs whenever the mode is INSERT *at that
point* — including when the NORMAL block itself just switched the mode. -/
def editorProcessKeypress (c : Nat) (E : EditorConfig) : PKResult :=
  let r := if E.mode = Mode.NORMAL then normalModeStep c E
           else { E := E, out := [], exitCode := none }
  match r.exitCode with
  | some _ => r
  | none =>
    if r.E.mode = Mode.INSERT then
      let r2 := insertModeStep c r.E
      { E := r2.E, out := r.out ++ r2.out, exitCode := r2.exitCode }
    else r

/-- The bytes of the cursor-position response actually stored by
`getCursorPosition`'s read loop: at most 31 bytes (`i < sizeof(buf) - 1`),
stopping after a failed read (the response is exhausted) or after storing the
first `'R'`. -/
def readCursorResponse : List Char → Nat → List Char
  | _, 0 => []
  | [], _ + 1 => []
  | ch :: rest, fuel + 1 =>
    if ch = 'R' then [ch] else ch :: readCursorResponse rest fuel

/-- One `%d` conversion of `sscanf`: skip leading whitespace, an optional
sign, then at least one digit.  Returns the unconsumed remainder on success,
`none` on a matching failure.  (The converted value is irrelevant to every
caller in this core.) -/
def scanIntRest (s : List Char) : Option (List Char) :=
  let s1 := s.dropWhile (fun ch => ch = ' ' || ch = '\t' || ch = '\n' || ch = '\r')
  let s2 := match s1 with
    | '-' :: t => t
    | '+' :: t => t
    | t => t
  match s2 with
  | ch :: _ => if ch.isDigit then some (s2.dropWhile Char.isDigit) else none
  | [] => none

/-- Return value of `sscanf(s, "%d;%d", rows, cols)`: `-1` (EOF) when the
input is exhausted before the first conversion, otherwise the number of
conversions completed (`0`, `1`, or `2`). -/
def sscanfDD (s : List Char) : Int :=
  if s = [] then -1
  else
    match scanIntRest s with
    | none => 0
    | some r1 =>
      match r1 with
      | ';' :: r2 =>
        match scanIntRest r2 with
        | none => 1
        | some _ => 2
      | _ => 1

/-- Return value of `getCursorPosition`: `-1` when the `ESC[6n` query write
fails, when the stored response does not start with `ESC [`, or when
`sscanf(&buf[2], "%d;%d", ...)` returns nonzero (the inverted success test of
the source); `0` otherwise.  Bytes the loop never stored are compared as a
non-escape placeholder (in the C they are indeterminate stack bytes).  The
out-parameters are not modelled: every caller's observable behaviour is
independent of them, because this function's result is used only by
`getWindowSize`, which discards it and returns `-1` on that path. -/
def getCursorPosition (writeOk : Bool) (resp : List Char) : Int :=
  if writeOk = false then -1
  else
    let buf := readCursorResponse resp 31
    if buf.getD 0 ' ' ≠ '\x1b' ∨ buf.getD 1 ' ' ≠ '[' then -1
    else if sscanfDD (buf.drop 2) ≠ 0 then -1
    else 0

/-- `getWindowSize`.  `ioctlRes` is the result of
`ioctl(STDOUT_FILENO, TIOCGWINSZ, &ws)`: `none` models the call returning
`-1`, `some (ws_row, ws_col)` a successfully filled `winsize`.  On the fallback path
(`ioctl` failed or `ws_col == 0`) the probe `ESC[999C ESC[999B` is written
(`probeWriteOk` is its outcome), `getCursorPosition`'s result is discarded,
and the function falls through to `return -1`.  Returns the C result together
with the dimensions stored through the out-pointers (`none` when they were
left untouched). -/
def getWindowSize (ioctlRes : Option (Int × Int)) (probeWriteOk : Bool)
    (resp : List Char) : Int × Option (Int × Int) :=
  match ioctlRes with
  | some (wsRow, wsCol) =>
    if wsCol = 0 then
      if probeWriteOk = false then (-1, none)
      else
        let _ := getCursorPosition true resp
        (-1, none)
    else (0, some (wsRow, wsCol))
  | none =>
    if probeWriteOk = false then (-1, none)
    else
      let _ := getCursorPosition true resp
      (-1, none)

/-- `initEditor`, parametrised by the environment of its `getWindowSize`
call.  Zeroes the cursor, offset, mode, and document fields, then queries the
window size; on failure it calls `die("getWindowSize")` (the restore hook is
already registered, since `main` runs `enableRawMode` first).  The screen
dimensions before assignment are modelled as `0` (uninitialised in the C, but
only observable on the fatal path, which terminates). -/
def initEditor (ioctlRes : Option (Int × Int)) (probeWriteOk : Bool)
    (resp : List Char) : EditorConfig × Option (List FatalAction) :=
  let base : EditorConfig :=
    { cur_row := 0, cur_col := 0, row_offset := 0, screen_rows := 0,
      screen_cols := 0, mode := Mode.NORMAL, num_rows := 0,
      row_capacity := 0, rows := [] }
  let g := getWindowSize ioctlRes probeWriteOk resp
  if g.1 = -1 then (base, some (die true "getWindowSize"))
  else
    match g.2 with
    | some (r, c) => ({ base with screen_rows := r, screen_cols := c }, none)
    | none => (base, none)

/-- The tail of `editorAppendRow` after capacity growth: allocate the
contents buffer (fatal on `malloc` failure), copy `len` bytes of `s`, store
the row at index `num_rows` (modelled as a list append under the maintained
invariant `num_rows = rows.length`), and increment `num_rows`. -/
def appendRowStore (mallocOk : Bool) (s : List Char) (len : Nat)
    (E : EditorConfig) : EditorConfig × Option (List FatalAction) :=
  if mallocOk = false then (E, some (die true "malloc row contents"))
  else
    ({ E with rows := E.rows ++ [{ size := (len : Int), contents := s.take len }],
              num_rows := E.num_rows + 1 }, none)

/-- `editorAppendRow` with the outcomes of its two allocations explicit:
when the row table is full it doubles the capacity (16 when zero) with
`realloc`, dying fatally on failure; then stores the new row (see
`appendRowStore`). -/
def editorAppendRowA (reallocOk mallocOk : Bool) (s : List Char) (len : Nat)
    (E : EditorConfig) : EditorConfig × Option (List FatalAction) :=
  if E.num_rows ≥ E.row_capacity then
    if reallocOk = false then (E, some (die true "realloc rows"))
    else
      appendRowStore mallocOk s len
        { E with row_capacity := if E.row_capacity = 0 then 16 else E.row_capacity * 2 }
  else appendRowStore mallocOk s len E

/-- `editorAppendRow` on the allocation success path. -/
def editorAppendRow (s : List Char) (len : Nat) (E : EditorConfig) : EditorConfig :=
  (editorAppendRowA true true s len E).1

/-- The inner `while` loop of `editorOpen`: drop trailing `'\n'` and `'\r'`
bytes from the end of the line just read. -/
def stripTrailingNewlines (l : List Char) : List Char :=
  (l.reverse.dropWhile (fun ch => ch = '\n' || ch = '\r')).reverse

/-- One `getline` call on the remaining file bytes: the first component is
the line read (up to and including its `'\n'`, or all remaining bytes when
the file ends without one), the second the rest of the file. -/
def splitAtNl : List Char → List Char × List Char
  | [] => ([], [])
  | ch :: cs =>
    if ch = '\n' then ([ch], cs)
    else
      let p := splitAtNl cs
      (ch :: p.1, p.2)

/-- Fuelled driver for `getlines`; the fuel bounds the number of `getline`
calls, and `file.length` always suffices since every line is nonempty. -/
def getlinesGo : Nat → List Char → List (List Char)
  | 0, _ => []
  | _ + 1, [] => []
  | fuel + 1, ch :: cs =>
    let p := splitAtNl (ch :: cs)
    p.1 :: getlinesGo fuel p.2

/-- The sequence of lines `getline` yields on the file's bytes, in order
(`getline` returns `-1` at end of file, so a trailing `'\n'` does not create
an extra empty line). -/
def getlines (file : List Char) : List (List Char) :=
  getlinesGo file.length file

/-- `editorOpen` on its success path (the file opened), with the file's bytes
made explicit.  For each line `getline` yields, the trailing-newline strip
loop shortens `linelen`, and `editorAppendRow(line, linelen)` copies the
first `linelen` bytes. -/
def editorOpen (file : List Char) (E : EditorConfig) : EditorConfig :=
  (getlines file).foldl
    (fun E line => editorAppendRow line (stripTrailingNewlines line).length E) E

/-- The row that loading the line `l` produces, per claim C6: contents equal
to the line with trailing `'\n'`/`'\r'` stripped, recorded size equal to the
stripped length. -/
def rowOfLine (l : List Char) : Erow :=
  { size := ((stripTrailingNewlines l).length : Int),
    contents := stripTrailingNewlines l }

/-- A concrete state violating the viewport invariant (cursor one row below
the single-row viewport), used to separate the frame `editorRefreshScreen`
writes from the frame claim C4 predicts. -/
def frameCexState : EditorConfig :=
  { cur_row := 1, cur_col := 0, row_offset := 0, screen_rows := 1,
    screen_cols := 10, mode := Mode.NORMAL, num_rows := 0,
    row_capacity := 0, rows := [] }

/-- A concrete editor state as produced by a successful startup on a 24×80
terminal with no document loaded yet; used to instantiate theorems with
hypotheses at concrete inputs. -/
def sampleInitState : EditorConfig :=
  { cur_row := 0, cur_col := 0, row_offset := 0, screen_rows := 24,
    screen_cols := 80, mode := Mode.NORMAL, num_rows := 0,
    row_capacity := 0, rows := [] }

@[simp]
theorem ARROW_LEFT_val : ARROW_LEFT = 104 := rfl

@[simp]
theorem ARROW_RIGHT_val : ARROW_RIGHT = 108 := rfl

@[simp]
theorem ARROW_UP_val : ARROW_UP = 107 := rfl

@[simp]
theorem ARROW_DOWN_val : ARROW_DOWN = 106 := rfl

@[simp]
theorem key_i_val : 'i'.toNat = 105 := rfl

@[simp]
theorem key_q_val : 'q'.toNat = 113 := rfl

@[simp]
theorem key_r_val : 'r'.toNat = 114 := rfl

@[simp]
theorem CTRL_KEY_113 : CTRL_KEY 113 = 17 := by decide

@[simp]
theorem CTRL_KEY_114 : CTRL_KEY 114 = 18 := by decide

@[simp]
theorem abAppend_eq (ab s : List Char) : abAppend ab s = ab ++ s := rfl

@[simp]
theorem editorScroll_fst_cur_row (E : EditorConfig) :
    (editorScroll E).1.cur_row = E.cur_row := by
  unfold editorScroll; split_ifs <;> rfl

@[simp]
theorem editorScroll_fst_cur_col (E : EditorConfig) :
    (editorScroll E).1.cur_col = E.cur_col := by
  unfold editorScroll; split_ifs <;> rfl

@[simp]
theorem editorScroll_fst_num_rows (E : EditorConfig) :
    (editorScroll E).1.num_rows = E.num_rows := by
  unfold editorScroll; split_ifs <;> rfl

@[simp]
theorem editorScroll_fst_screen_rows (E : EditorConfig) :
    (editorScroll E).1.screen_rows = E.screen_rows := by
  unfold editorScroll; split_ifs <;> rfl

@[simp]
theorem editorScroll_fst_screen_cols (E : EditorConfig) :
    (editorScroll E).1.screen_cols = E.screen_cols := by
  unfold editorScroll; split_ifs <;> rfl

@[simp]
theorem editorScroll_fst_mode (E : EditorConfig) :
    (editorScroll E).1.mode = E.mode := by
  unfold editorScroll; split_ifs <;> rfl

@[simp]
theorem editorScroll_fst_rows (E : EditorConfig) :
    (editorScroll E).1.rows = E.rows := by
  unfold editorScroll; split_ifs <;> rfl

@[simp]
theorem editorRefreshScreen_fst (E : EditorConfig) :
    (editorRefreshScreen E).1 = (editorScroll E).1 := rfl

/-- C1: after `editorScroll`, the viewport invariant
`row_offset <= cur_row < row_offset + screen_rows` holds, and the returned
`int` is `1` exactly when the call changed `row_offset`, `0` otherwise. -/
theorem editorScroll_viewport_invariant (E : EditorConfig)
    (hrow : 0 ≤ E.cur_row) (hscr : 1 ≤ E.screen_rows) :
    (editorScroll E).1.row_offset ≤ (editorScroll E).1.cur_row ∧
    (editorScroll E).1.cur_row <
      (editorScroll E).1.row_offset + (editorScroll E).1.screen_rows ∧
    ((editorScroll E).2 = 1 ↔ (editorScroll E).1.row_offset ≠ E.row_offset) ∧
    ((editorScroll E).2 = 0 ↔ (editorScroll E).1.row_offset = E.row_offset) := by
  unfold editorScroll
  split_ifs <;> simp_all <;> omega

/-- Witness for C1: a concrete state (cursor below the viewport) on which the
scroll recomputation fires and the invariant is re-established. -/
theorem editorScroll_viewport_invariant_witness :
    let E : EditorConfig :=
      { cur_row := 7, cur_col := 0, row_offset := 0, screen_rows := 3,
        screen_cols := 80, mode := Mode.NORMAL, num_rows := 10,
        row_capacity := 16, rows := [] }
    (editorScroll E).1.row_offset ≤ (editorScroll E).1.cur_row ∧
    (editorScroll E).1.cur_row <
      (editorScroll E).1.row_offset + (editorScroll E).1.screen_rows ∧
    ((editorScroll E).2 = 1 ↔ (editorScroll E).1.row_offset ≠ E.row_offset) ∧
    ((editorScroll E).2 = 0 ↔ (editorScroll E).1.row_offset = E.row_offset) :=
  editorScroll_viewport_invariant _ (by decide) (by decide)

/-- C2 counterexample: the claim's ordering (terminal restore strictly before
the error print) is false on the code.  Even on a fatal path where the
restore hook is registered, `die` runs `perror` first and the restore only
happens inside `exit(1)`'s handler run; and on the path where the very first
attribute capture (`tcgetattr`) failed, no restore occurs at all. -/
theorem die_restore_after_print_cex :
    restoreBeforePrint (die true "tcsetattr") = false ∧
    restoreBeforePrint (die false "tcgetattr") = false := by decide

/-- C2 amended: every fatal path funnels through `die`, which prints the
failing operation name with the platform's error description first and then
terminates with status 1; the pristine-attribute restore runs only via the
exit hook, *after* the message is printed, and is skipped entirely when the
initial `tcgetattr` failed (the hook was not yet registered). -/
theorem die_print_then_restore (s : String) :
    die true s =
      [FatalAction.perrorMsg s, FatalAction.restoreTerminal,
        FatalAction.exitProcess 1] ∧
    die false s = [FatalAction.perrorMsg s, FatalAction.exitProcess 1] :=
  ⟨rfl, rfl⟩

/-- C3: `editorReadKey` decodes `ESC [ A/B/C/D` to the Up/Down/Right/Left
symbols, returns the bare escape byte when either follow-byte read yields no
byte or when the sequence is `ESC [` followed by any other byte, returns any
non-escape byte verbatim, and the four directional symbols are literally the
bytes `k`, `j`, `l`, `h`. -/
theorem editorReadKey_decode (c s1 : Nat) (seq0 seq1 : Option Nat) :
    editorReadKey 0x1b (some '['.toNat) (some 'A'.toNat) = ARROW_UP ∧
    editorReadKey 0x1b (some '['.toNat) (some 'B'.toNat) = ARROW_DOWN ∧
    editorReadKey 0x1b (some '['.toNat) (some 'C'.toNat) = ARROW_RIGHT ∧
    editorReadKey 0x1b (some '['.toNat) (some 'D'.toNat) = ARROW_LEFT ∧
    editorReadKey 0x1b none seq1 = 0x1b ∧
    editorReadKey 0x1b seq0 none = 0x1b ∧
    (s1 ≠ 'A'.toNat → s1 ≠ 'B'.toNat → s1 ≠ 'C'.toNat → s1 ≠ 'D'.toNat →
      editorReadKey 0x1b (some '['.toNat) (some s1) = 0x1b) ∧
    (c ≠ 0x1b → editorReadKey c seq0 seq1 = c) ∧
    ARROW_UP = 'k'.toNat ∧ ARROW_DOWN = 'j'.toNat ∧
    ARROW_RIGHT = 'l'.toNat ∧ ARROW_LEFT = 'h'.toNat := by
  refine ⟨by decide, by decide, by decide, by decide, ?_, ?_, ?_, ?_,
    by decide, by decide, by decide, by decide⟩
  · cases seq1 <;> rfl
  · cases seq0 <;> rfl
  · intro hA hB hC hD
    have hA' : s1 ≠ 65 := hA
    have hB' : s1 ≠ 66 := hB
    have hC' : s1 ≠ 67 := hC
    have hD' : s1 ≠ 68 := hD
    simp [editorReadKey, hA', hB', hC', hD']
  · intro hc
    simp only [editorReadKey, if_neg hc]

/-- Witness for C3: the decoder applied at concrete inputs, discharging the
conditional clauses — `ESC [ E` yields bare escape, and the plain byte `x`
passes through unchanged. -/
theorem editorReadKey_decode_witness :
    editorReadKey 0x1b (some '['.toNat) (some 'E'.toNat) = 0x1b ∧
    editorReadKey 'x'.toNat (some '['.toNat) (some 'A'.toNat) = 'x'.toNat :=
  ⟨(editorReadKey_decode 'x'.toNat 'E'.toNat (some '['.toNat)
      (some 'A'.toNat)).2.2.2.2.2.2.1
        (by decide) (by decide) (by decide) (by decide),
   (editorReadKey_decode 'x'.toNat 'E'.toNat (some '['.toNat)
      (some 'A'.toNat)).2.2.2.2.2.2.2.1 (by decide)⟩

/-- C7 counterexample: a failed `realloc` inside `abAppend` does *not*
terminate the process — the function silently returns, the buffer is left
unchanged, and the appended bytes are dropped. -/
theorem abAppend_alloc_failure_cex :
    (abAppendA false ['x'] ['y']).1 = ['x'] ∧
    (abAppendA false ['x'] ['y']).2 = none := by decide

/-- C7 amended: an allocation failure while growing the Document Store
(`realloc` of the row table, or `malloc` of a row's contents, in
`editorAppendRow`) is fatal — the process dies through `die` and terminates
with status 1 — but an allocation failure in the Append Buffer (`abAppend`)
is silently ignored: the buffer is returned unchanged with no fatal path
taken. -/
theorem alloc_failure_semantics (E : EditorConfig) (s ab t : List Char)
    (len : Nat) (mOk : Bool) (hfull : E.num_rows ≥ E.row_capacity) :
    (editorAppendRowA false mOk s len E).2 = some (die true "realloc rows") ∧
    (editorAppendRowA true false s len E).2 =
      some (die true "malloc row contents") ∧
    abAppendA false ab t = (ab, none) ∧
    FatalAction.exitProcess 1 ∈ die true "realloc rows" ∧
    FatalAction.exitProcess 1 ∈ die true "malloc row contents" := by
  refine ⟨?_, ?_, rfl, by decide, by decide⟩
  · simp [editorAppendRowA, hfull]
  · unfold editorAppendRowA appendRowStore
    split_ifs <;> simp_all

/-- Witness for C7: the amended statement at a concrete full-capacity state. -/
theorem alloc_failure_semantics_witness :
    (editorAppendRowA false true ['a'] 1 sampleInitState).2 =
      some (die true "realloc rows") ∧
    (editorAppendRowA true false ['a'] 1 sampleInitState).2 =
      some (die true "malloc row contents") ∧
    abAppendA false [] ['a'] = ([], none) ∧
    FatalAction.exitProcess 1 ∈ die true "realloc rows" ∧
    FatalAction.exitProcess 1 ∈ die true "malloc row contents" :=
  alloc_failure_semantics sampleInitState ['a'] [] ['a'] 1 true (by decide)

theorem normalModeStep_mode (c : Nat) (E : EditorConfig) :
    (normalModeStep c E).E.mode =
      if c = 'i'.toNat then Mode.INSERT else E.mode := by
  unfold normalModeStep
  split_ifs <;> simp_all [apply_ite]

theorem normalModeStep_exitCode (c : Nat) (E : EditorConfig) :
    (normalModeStep c E).exitCode =
      if c = CTRL_KEY 'q'.toNat then some 0 else none := by
  unfold normalModeStep
  split_ifs <;> simp_all [apply_ite]

theorem normalModeStep_no_echo (c : Nat) (E : EditorConfig) :
    ∀ o ∈ (normalModeStep c E).out, isEcho o = false := by
  unfold normalModeStep
  split_ifs <;> intro o ho <;>
    (try (rw [apply_ite PKResult.out] at ho; split at ho)) <;>
    simp_all [isEcho]

theorem insertModeStep_mode (c : Nat) (E : EditorConfig) :
    (insertModeStep c E).E.mode =
      if c = 0x1b then Mode.NORMAL else E.mode := by
  unfold insertModeStep
  split_ifs <;> simp_all

theorem processKeypress_state_of_normal (c : Nat) (E : EditorConfig)
    (hm : E.mode = Mode.NORMAL) (hi : c ≠ 'i'.toNat) :
    editorProcessKeypress c E = normalModeStep c E := by
  unfold editorProcessKeypress
  rw [if_pos hm]
  have hmode := normalModeStep_mode c E
  rw [if_neg hi] at hmode
  cases hx : (normalModeStep c E).exitCode with
  | some v => simp [hx]
  | none => simp [hx, hmode, hm]

theorem normalModeStep_cur_row (c : Nat) (E : EditorConfig) :
    (normalModeStep c E).E.cur_row =
      if c = ARROW_DOWN then
        (if E.cur_row < E.num_rows - 1 then E.cur_row + 1 else E.cur_row)
      else if c = ARROW_UP then
        (if E.cur_row > 0 then E.cur_row - 1 else E.cur_row)
      else E.cur_row := by
  unfold normalModeStep
  split_ifs <;> simp_all [apply_ite]

theorem normalModeStep_cur_col (c : Nat) (E : EditorConfig) :
    (normalModeStep c E).E.cur_col =
      if c = ARROW_RIGHT then
        (if E.cur_col < E.screen_cols - 1 then E.cur_col + 1 else E.cur_col)
      else if c = ARROW_LEFT then
        (if E.cur_col > 0 then E.cur_col - 1 else E.cur_col)
      else E.cur_col := by
  unfold normalModeStep
  split_ifs <;> simp_all [apply_ite]

theorem processKeypress_mode_cases (c : Nat) (E : EditorConfig) :
    (editorProcessKeypress c E).E.mode = Mode.NORMAL ∨
    (editorProcessKeypress c E).E.mode = Mode.INSERT ∨
    (editorProcessKeypress c E).E.mode = E.mode := by
  unfold editorProcessKeypress
  split_ifs with hN
  · cases hx : (normalModeStep c E).exitCode with
    | some v =>
      simp only [hx]
      have h := normalModeStep_mode c E
      by_cases hi : c = 'i'.toNat
      · rw [if_pos hi] at h; right; left; exact h
      · rw [if_neg hi] at h; right; right; exact h
    | none =>
      simp only [hx]
      have h := normalModeStep_mode c E
      split_ifs with h2
      · have h3 := insertModeStep_mode c (normalModeStep c E).E
        by_cases he : c = 0x1b
        · rw [if_pos he] at h3; left; exact h3
        · rw [if_neg he] at h3; rw [h3, h2]; right; left; rfl
      · by_cases hi : c = 'i'.toNat
        · rw [if_pos hi] at h; right; left; exact h
        · rw [if_neg hi] at h; right; right; exact h
  · cases hx : (PKResult.mk E [] none).exitCode with
    | some v => simp at hx
    | none =>
      simp only []
      split_ifs with h2
      · have h3 := insertModeStep_mode c E
        by_cases he : c = 0x1b
        · rw [if_pos he] at h3; left; exact h3
        · rw [if_neg he] at h3; right; right; exact h3
      · right; right; rfl

/-- C5: in NORMAL mode, processing a directional key keeps `cur_row` inside
`[0, num_rows-1]` whenever `num_rows > 0` and it started in that range
(MoveDown at the last row and MoveUp at the first row are no-ops), keeps
`cur_col` inside `[0, screen_cols-1]` whenever it started there, and the new
`cur_col` is a function of `cur_col` and `screen_cols` alone — clamped only to
the screen width, never to the current document row's length, so the cursor
may sit past the end of a short line. -/
theorem normalMode_cursor_bounds (E : EditorConfig) (c : Nat)
    (hm : E.mode = Mode.NORMAL)
    (hc : c = ARROW_UP ∨ c = ARROW_DOWN ∨ c = ARROW_LEFT ∨ c = ARROW_RIGHT) :
    (0 < E.num_rows → 0 ≤ E.cur_row → E.cur_row ≤ E.num_rows - 1 →
      0 ≤ (editorProcessKeypress c E).E.cur_row ∧
      (editorProcessKeypress c E).E.cur_row ≤ E.num_rows - 1) ∧
    (0 ≤ E.cur_col → E.cur_col ≤ E.screen_cols - 1 →
      0 ≤ (editorProcessKeypress c E).E.cur_col ∧
      (editorProcessKeypress c E).E.cur_col ≤ E.screen_cols - 1) ∧
    (c = ARROW_DOWN → E.cur_row = E.num_rows - 1 →
      (editorProcessKeypress c E).E.cur_row = E.cur_row) ∧
    (c = ARROW_UP → E.cur_row = 0 →
      (editorProcessKeypress c E).E.cur_row = E.cur_row) ∧
    ((editorProcessKeypress c E).E.cur_col =
      if c = ARROW_RIGHT then
        (if E.cur_col < E.screen_cols - 1 then E.cur_col + 1 else E.cur_col)
      else if c = ARROW_LEFT then
        (if E.cur_col > 0 then E.cur_col - 1 else E.cur_col)
      else E.cur_col) := by
  have hne : c ≠ 'i'.toNat := by
    rcases hc with h | h | h | h <;> subst h <;> decide
  rw [processKeypress_state_of_normal c E hm hne]
  rw [normalModeStep_cur_row, normalModeStep_cur_col]
  rcases hc with h | h | h | h <;> subst h <;>
    simp <;> split_ifs <;> omega

/-- Witness for C5: the bounds at concrete states — MoveDown on a 3-row
document and MoveRight on an 80-column screen. -/
theorem normalMode_cursor_bounds_witness :
    (0 ≤ (editorProcessKeypress ARROW_DOWN { sampleInitState with num_rows := 3 }).E.cur_row ∧
     (editorProcessKeypress ARROW_DOWN { sampleInitState with num_rows := 3 }).E.cur_row ≤
       ({ sampleInitState with num_rows := 3 } : EditorConfig).num_rows - 1) ∧
    (0 ≤ (editorProcessKeypress ARROW_RIGHT sampleInitState).E.cur_col ∧
     (editorProcessKeypress ARROW_RIGHT sampleInitState).E.cur_col ≤
       sampleInitState.screen_cols - 1) ∧
    ((editorProcessKeypress ARROW_RIGHT sampleInitState).E.cur_col =
      if (ARROW_RIGHT : Nat) = ARROW_RIGHT then
        (if sampleInitState.cur_col < sampleInitState.screen_cols - 1 then
          sampleInitState.cur_col + 1 else sampleInitState.cur_col)
      else if (ARROW_RIGHT : Nat) = ARROW_LEFT then
        (if sampleInitState.cur_col > 0 then sampleInitState.cur_col - 1
         else sampleInitState.cur_col)
      else sampleInitState.cur_col) :=
  ⟨(normalMode_cursor_bounds { sampleInitState with num_rows := 3 } ARROW_DOWN rfl
      (Or.inr (Or.inl rfl))).1 (by decide) (by decide) (by decide),
   (normalMode_cursor_bounds sampleInitState ARROW_RIGHT rfl
      (Or.inr (Or.inr (Or.inr rfl)))).2.1 (by decide) (by decide),
   (normalMode_cursor_bounds sampleInitState ARROW_RIGHT rfl
      (Or.inr (Or.inr (Or.inr rfl)))).2.2.2.2⟩

/-- C8: the mode machine starts in NORMAL (successful `initEditor`), `i` in
NORMAL enters INSERT, bare escape in INSERT returns to NORMAL, Ctrl-Q in
either mode terminates with exit status 0, and no key ever makes the mode
VISUAL. -/
theorem mode_machine (E : EditorConfig) (c : Nat) (wsRow wsCol : Int)
    (p : Bool) (resp : List Char) :
    (wsCol ≠ 0 → (initEditor (some (wsRow, wsCol)) p resp).1.mode = Mode.NORMAL) ∧
    (E.mode = Mode.NORMAL →
      (editorProcessKeypress 'i'.toNat E).E.mode = Mode.INSERT) ∧
    (E.mode = Mode.INSERT →
      (editorProcessKeypress 0x1b E).E.mode = Mode.NORMAL) ∧
    (E.mode = Mode.NORMAL ∨ E.mode = Mode.INSERT →
      (editorProcessKeypress (CTRL_KEY 'q'.toNat) E).exitCode = some 0) ∧
    (E.mode ≠ Mode.VISUAL →
      (editorProcessKeypress c E).E.mode ≠ Mode.VISUAL) := by
  refine ⟨?_, ?_, ?_, ?_, ?_⟩
  · intro hws
    simp [initEditor, getWindowSize, hws]
  · intro hm
    have h1 : normalModeStep 'i'.toNat E =
        { E := { E with mode := Mode.INSERT }, out := [], exitCode := none } := by
      unfold normalModeStep; simp
    unfold editorProcessKeypress
    rw [if_pos hm, h1]
    simp [insertModeStep]
  · intro hm
    unfold editorProcessKeypress
    rw [if_neg (by rw [hm]; decide)]
    simp [hm, insertModeStep]
  · intro hmm
    rcases hmm with hN | hI
    · have hx : (normalModeStep (CTRL_KEY 'q'.toNat) E).exitCode = some 0 := by
        rw [normalModeStep_exitCode, if_pos rfl]
      unfold editorProcessKeypress
      rw [if_pos hN]
      simp only []
      split <;> simp_all
    · unfold editorProcessKeypress
      rw [if_neg (by rw [hI]; decide)]
      simp [hI, insertModeStep]
  · intro hnv
    rcases processKeypress_mode_cases c E with h | h | h <;> rw [h] <;>
      first
        | decide
        | exact hnv

/-- Witness for C8: each transition exercised at a concrete state. -/
theorem mode_machine_witness :
    (initEditor (some (24, 80)) true []).1.mode = Mode.NORMAL ∧
    (editorProcessKeypress 'i'.toNat sampleInitState).E.mode = Mode.INSERT ∧
    (editorProcessKeypress 0x1b
      { sampleInitState with mode := Mode.INSERT }).E.mode = Mode.NORMAL ∧
    (editorProcessKeypress (CTRL_KEY 'q'.toNat) sampleInitState).exitCode = some 0 ∧
    (editorProcessKeypress (CTRL_KEY 'q'.toNat)
      { sampleInitState with mode := Mode.INSERT }).exitCode = some 0 ∧
    (editorProcessKeypress 'x'.toNat sampleInitState).E.mode ≠ Mode.VISUAL :=
  ⟨(mode_machine sampleInitState 'x'.toNat 24 80 true []).1 (by decide),
   (mode_machine sampleInitState 'x'.toNat 24 80 true []).2.1 rfl,
   (mode_machine { sampleInitState with mode := Mode.INSERT } 'x'.toNat 24 80 true
      []).2.2.1 rfl,
   (mode_machine sampleInitState 'x'.toNat 24 80 true []).2.2.2.1 (Or.inl rfl),
   (mode_machine { sampleInitState with mode := Mode.INSERT } 'x'.toNat 24 80 true
      []).2.2.2.1 (Or.inr rfl),
   (mode_machine sampleInitState 'x'.toNat 24 80 true []).2.2.2.2 (by decide)⟩

/-- C10: processing `i` in NORMAL mode both switches the mode to INSERT and
then runs the INSERT block on the same key in the same call, producing the
INSERT default diagnostic echo; for every other key processed from NORMAL
mode, no diagnostic echo is produced. -/
theorem insert_double_dispatch (E : EditorConfig) (c : Nat)
    (hm : E.mode = Mode.NORMAL) :
    ((editorProcessKeypress 'i'.toNat E).E.mode = Mode.INSERT ∧
     (editorProcessKeypress 'i'.toNat E).out = [Out.echo (printfEcho 'i'.toNat)]) ∧
    (c ≠ 'i'.toNat → ∀ o ∈ (editorProcessKeypress c E).out, isEcho o = false) := by
  constructor
  · have h1 : normalModeStep 'i'.toNat E =
        { E := { E with mode := Mode.INSERT }, out := [], exitCode := none } := by
      unfold normalModeStep; simp
    unfold editorProcessKeypress
    rw [if_pos hm, h1]
    simp [insertModeStep, printfEcho]
  · intro hne o ho
    rw [processKeypress_state_of_normal c E hm hne] at ho
    exact normalModeStep_no_echo c E o ho

/-- Witness for C10: the double dispatch of `i` and the echo-free processing
of MoveDown, at a concrete state. -/
theorem insert_double_dispatch_witness :
    ((editorProcessKeypress 'i'.toNat sampleInitState).E.mode = Mode.INSERT ∧
     (editorProcessKeypress 'i'.toNat sampleInitState).out =
       [Out.echo (printfEcho 'i'.toNat)]) ∧
    (∀ o ∈ (editorProcessKeypress ARROW_DOWN sampleInitState).out,
      isEcho o = false) :=
  ⟨(insert_double_dispatch sampleInitState ARROW_DOWN rfl).1,
   (insert_double_dispatch sampleInitState ARROW_DOWN rfl).2 (by decide)⟩

/-- C9: whenever the window-size `ioctl` fails (or reports zero columns),
`getWindowSize` returns `-1` regardless of the fallback probe's outcome — the
fallback never supplies dimensions, both because `getWindowSize` falls
through to `return -1` after invoking the probe, and because
`getCursorPosition` (once past the `ESC [` guard) returns `-1` exactly when
`sscanf` reports a nonzero result for the response — so `initEditor` dies
fatally (exit status 1) in every execution where the `ioctl` fails. -/
theorem getWindowSize_ioctl_failure_fatal (p : Bool) (resp resp2 : List Char)
    (wsRow : Int)
    (hesc : (readCursorResponse resp2 31).getD 0 ' ' = '\x1b')
    (hbr : (readCursorResponse resp2 31).getD 1 ' ' = '[') :
    (getWindowSize none p resp).1 = -1 ∧
    (getWindowSize (some (wsRow, 0)) p resp).1 = -1 ∧
    (getCursorPosition true resp2 = -1 ↔
      sscanfDD ((readCursorResponse resp2 31).drop 2) ≠ 0) ∧
    (initEditor none p resp).2 = some (die true "getWindowSize") ∧
    FatalAction.exitProcess 1 ∈ die true "getWindowSize" := by
  refine ⟨?_, ?_, ?_, ?_, by decide⟩
  · cases p <;> simp [getWindowSize]
  · cases p <;> simp [getWindowSize]
  · unfold getCursorPosition
    simp only [hesc, hbr]
    rw [if_neg (by decide), if_neg (by simp)]
    split_ifs with h <;> simp_all
  · cases p <;> simp [initEditor, getWindowSize]

/-- Witness for C9: the fallback at a concrete, well-formed cursor response
`ESC[24;80R` (which `sscanf` parses fully, so `getCursorPosition` returns
`-1`), and a failed `ioctl`. -/
theorem getWindowSize_ioctl_failure_fatal_witness :
    (getWindowSize none true []).1 = -1 ∧
    (getCursorPosition true "\x1b[24;80R".toList = -1 ↔
      sscanfDD ((readCursorResponse "\x1b[24;80R".toList 31).drop 2) ≠ 0) ∧
    (initEditor none true []).2 = some (die true "getWindowSize") :=
  ⟨(getWindowSize_ioctl_failure_fatal true [] "\x1b[24;80R".toList 24
      (by decide) (by decide)).1,
   (getWindowSize_ioctl_failure_fatal true [] "\x1b[24;80R".toList 24
      (by decide) (by decide)).2.2.1,
   (getWindowSize_ioctl_failure_fatal true [] "\x1b[24;80R".toList 24
      (by decide) (by decide)).2.2.2.1⟩

theorem take_length_append (a b : List Char) : (a ++ b).take a.length = a := by
  induction a with
  | nil => simp
  | cons x xs ih => simp [ih]

theorem stripTrailingNewlines_take (l : List Char) :
    l.take (stripTrailingNewlines l).length = stripTrailingNewlines l := by
  have h : stripTrailingNewlines l ++
      (l.reverse.takeWhile (fun ch => ch = '\n' || ch = '\r')).reverse = l := by
    unfold stripTrailingNewlines
    have h2 := congrArg List.reverse
      (List.takeWhile_append_dropWhile
        (p := fun ch : Char => ch = '\n' || ch = '\r') (l := l.reverse))
    rw [List.reverse_append, List.reverse_reverse] at h2
    exact h2
  set s := stripTrailingNewlines l with hs
  rw [← h]
  exact take_length_append s _

theorem appendRows_foldl (ls : List (List Char)) (E : EditorConfig) :
    ((ls.foldl (fun E line =>
        editorAppendRow line (stripTrailingNewlines line).length E) E).rows =
      E.rows ++ ls.map rowOfLine) ∧
    ((ls.foldl (fun E line =>
        editorAppendRow line (stripTrailingNewlines line).length E) E).num_rows =
      E.num_rows + (ls.length : Int)) := by
  induction ls generalizing E with
  | nil => simp
  | cons l t ih =>
    obtain ⟨h1, h2⟩ := ih (editorAppendRow l (stripTrailingNewlines l).length E)
    have hrow : (editorAppendRow l (stripTrailingNewlines l).length E).rows =
        E.rows ++ [rowOfLine l] := by
      unfold editorAppendRow editorAppendRowA appendRowStore rowOfLine
      split_ifs <;> simp_all [stripTrailingNewlines_take]
    have hnum : (editorAppendRow l (stripTrailingNewlines l).length E).num_rows =
        E.num_rows + 1 := by
      unfold editorAppendRow editorAppendRowA appendRowStore
      split_ifs <;> simp_all
    constructor
    · rw [List.foldl_cons, h1, hrow]
      simp
    · rw [List.foldl_cons, h2, hnum]
      simp only [List.length_cons]
      push_cast
      ring

/-- C6: loading a source file through `editorOpen` populates the Document
Store with exactly one row per `getline`-delivered line, in file order, each
row's contents equal to the source line with its trailing `'\n'`/`'\r'`
bytes stripped and no other bytes altered, and each row's recorded size equal
to the stripped length. -/
theorem editorOpen_roundtrip (file : List Char) (E0 : EditorConfig)
    (hrows : E0.rows = []) (hnum : E0.num_rows = 0) :
    (editorOpen file E0).rows = (getlines file).map rowOfLine ∧
    (editorOpen file E0).num_rows = ((getlines file).length : Int) ∧
    ∀ r ∈ (editorOpen file E0).rows, r.size = (r.contents.length : Int) := by
  obtain ⟨h1, h2⟩ := appendRows_foldl (getlines file) E0
  refine ⟨?_, ?_, ?_⟩
  · unfold editorOpen
    rw [h1, hrows]
    simp
  · unfold editorOpen
    rw [h2, hnum]
    simp
  · intro r hr
    unfold editorOpen at hr
    rw [h1, hrows] at hr
    simp only [List.nil_append, List.mem_map] at hr
    obtain ⟨l, _, rfl⟩ := hr
    simp [rowOfLine]

/-- Witness for C6: loading the concrete two-line file `"ab\r\nc\n"` from a
fresh state. -/
theorem editorOpen_roundtrip_witness :
    (editorOpen "ab\r\nc\n".toList sampleInitState).rows =
      (getlines "ab\r\nc\n".toList).map rowOfLine ∧
    (editorOpen "ab\r\nc\n".toList sampleInitState).num_rows =
      ((getlines "ab\r\nc\n".toList).length : Int) ∧
    ∀ r ∈ (editorOpen "ab\r\nc\n".toList sampleInitState).rows,
      r.size = (r.contents.length : Int) :=
  editorOpen_roundtrip "ab\r\nc\n".toList sampleInitState rfl rfl

theorem foldl_abAppend_flatten (g : Nat → List Char) (l : List Nat)
    (ab : List Char) :
    l.foldl (fun a y => abAppend a (g y)) ab = ab ++ (l.map g).flatten := by
  induction l generalizing ab with
  | nil => simp
  | cons x xs ih =>
    rw [List.foldl_cons, ih]
    simp [List.append_assoc]

theorem editorDrawRows_eq (E : EditorConfig) (ab : List Char) :
    editorDrawRows E ab =
      ab ++ ((List.range E.screen_rows.toNat).map (drawRowBytes E)).flatten := by
  unfold editorDrawRows
  exact foldl_abAppend_flatten _ _ _

theorem drawRowBytes_eq_spec (E : EditorConfig) (y : Nat)
    (hy : y < E.screen_rows.toNat) :
    drawRowBytes E y = specRowBytes E y := by
  unfold drawRowBytes specRowBytes
  have hc : ((y : Int) < E.screen_rows - 1) ↔ (y + 1 < E.screen_rows.toNat) := by
    omega
  have hlen : ∀ a b : Int, (if a > b then b else a) = min a b := by
    intro a b
    rw [min_def]
    split_ifs <;> omega
  simp only [hlen, hc]

/-- C4 counterexample: for a state whose `row_offset` violates the viewport
invariant (cursor one row below a one-row viewport), the frame written by
`editorRefreshScreen` differs from the frame the claim computes from the
state's own `row_offset` — the refresh recomputes the offset first, so the
cursor-positioning sequence is `ESC[1;1H`, not the claimed `ESC[2;1H`. -/
theorem editorRefreshScreen_frame_cex :
    (editorRefreshScreen frameCexState).2 ≠ specFrame frameCexState := by decide

/-- C4 amended: the frame written by `editorRefreshScreen` is exactly the
claimed byte sequence — hide-cursor, home, for each screen row either the
first `min(size, screen_cols)` bytes of the corresponding document row or the
`'~'` fill byte, each followed by `ESC[K` and (for all but the last screen
row) `"\r\n"`, then `ESC[{cur_row - row_offset + 1};{cur_col + 1}H`, then
show-cursor — with `row_offset` taken *after* the `editorScroll`
recomputation the refresh performs first (for states already satisfying the
viewport invariant the two coincide). -/
theorem editorRefreshScreen_frame (E : EditorConfig) :
    (editorRefreshScreen E).2 = specFrame (editorScroll E).1 := by
  unfold editorRefreshScreen specFrame
  simp only [hideCursor, resetCrusorPosition, showCursor, abAppend_eq,
    editorDrawRows_eq, moveCursor]
  rw [List.map_congr_left
    (fun y hy => drawRowBytes_eq_spec (editorScroll E).1 y (List.mem_range.mp hy))]
  simp [List.append_assoc]
